/-
  Verification of the data-converter backend core against its specification.

  The embedding models:
  * the JSON-like Python values flowing through the service (`JVal`, `PyDict`);
  * the schema-normalization loop of `create_stable_html` (src/main.py, lines 225-255);
  * the integrity validator `DataIntegrityValidator` (src/data_validator.py);
  * the client-side randomization `randomizeQuestions` (the script emitted by
    src/main.py lines 377-404 and src/stable_api.py lines 272-299).

  Fallible Python code is embedded as `Except PyErr`; statements that can raise
  (attribute lookups on non-strings, `len` of non-sized values, `re.search` on a
  non-string) return `.error`.  Randomness is modelled by quantifying over the
  permutation the Fisher-Yates shuffle produced.
-/
import Mathlib

set_option linter.unusedVariables false

/-- JSON-shaped Python value: the payloads the service receives are decoded
from JSON, so object keys are strings and values are null, booleans, integers,
strings, arrays or objects. -/
inductive JVal where
  | null : JVal
  | b : Bool → JVal
  | i : Int → JVal
  | s : String → JVal
  | arr : List JVal → JVal
  | obj : List (String × JVal) → JVal

/-- A Python dictionary with string keys, as produced by JSON decoding. -/
abbrev PyDict := List (String × JVal)

/-- Runtime exceptions the embedded Python fragments can raise. -/
inductive PyErr where
  | typeError : PyErr
  | attributeError : PyErr
deriving DecidableEq

/-- Python truthiness of a value (`bool(v)`). -/
def pyTruthy : JVal → Bool
  | .null => false
  | .b v => v
  | .i n => n != 0
  | .s t => t != ""
  | .arr l => !l.isEmpty
  | .obj l => !l.isEmpty

/-- Python `d.get(k, default)` on a string-keyed dictionary. -/
def dictGetD (d : PyDict) (k : String) (dflt : JVal) : JVal :=
  match d.find? (fun kv => kv.1 == k) with
  | some kv => kv.2
  | none => dflt

/-- Python `k in d` for a dictionary. -/
def hasKey (d : PyDict) (k : String) : Bool :=
  (d.find? (fun kv => kv.1 == k)).isSome

/-- Single-character string holding an apostrophe (used by Python `repr`). -/
def sqs : String := String.singleton (Char.ofNat 39)

/-- Single-character string holding a double quote. -/
def dqs : String := String.singleton (Char.ofNat 34)

/-- Python `repr` of a JSON-shaped value.  The escaping Python applies to
quote characters inside strings is not modelled; no theorem evaluates the
representation on such strings. -/
def pyRepr : JVal → String
  | .null => "None"
  | .b true => "True"
  | .b false => "False"
  | .i n => toString n
  | .s t => sqs ++ t ++ sqs
  | .arr l => "[" ++ String.intercalate ", " (l.attach.map (fun a => pyRepr a.1)) ++ "]"
  | .obj l => "\x7b" ++ String.intercalate ", "
      (l.attach.map (fun kv => sqs ++ kv.1.1 ++ sqs ++ ": " ++ pyRepr kv.1.2)) ++ "\x7d"
decreasing_by
  · have := List.sizeOf_lt_of_mem a.2
    simp only [JVal.arr.sizeOf_spec]
    omega
  · have h1 := List.sizeOf_lt_of_mem kv.2
    have h2 : sizeOf kv.1.2 < sizeOf kv.1 := by
      obtain ⟨k, v⟩ := kv.1
      simp only [Prod.mk.sizeOf_spec]
      omega
    simp only [JVal.obj.sizeOf_spec]
    omega

/-- Python `str` of a JSON-shaped value. -/
def pyStr : JVal → String
  | .s t => t
  | v => pyRepr v

/-- Whitespace recognised by Python `str.strip` (ASCII part). -/
def isPySpace (c : Char) : Bool :=
  c == ' ' || c == '\t' || c == '\n' || c == '\r' ||
  c == Char.ofNat 11 || c == Char.ofNat 12

/-- Python `str.strip()` on an actual string. -/
def pyStrip (t : String) : String :=
  String.mk (((t.data.dropWhile isPySpace).reverse.dropWhile isPySpace).reverse)

/-- Python `v.strip()`: succeeds on strings, raises `AttributeError` on any
other value (`None`, numbers, lists, ...), which have no `strip` method. -/
def pyStripMethod : JVal → Except PyErr String
  | .s t => .ok (pyStrip t)
  | _ => .error .attributeError

/-- Parse the digits of a Python `int` literal. -/
def digitsVal : List Char → Option Nat
  | [] => none
  | cs => cs.foldl (fun acc c =>
      match acc with
      | none => none
      | some n => if c.isDigit then some (n * 10 + (c.toNat - 48)) else none)
      (some 0)

/-- Python `int(v)`: `none` models the `TypeError`/`ValueError` raised when the
value cannot be converted. -/
def pyInt : JVal → Option Int
  | .i n => some n
  | .b true => some 1
  | .b false => some 0
  | .s t =>
    let cs := (t.data.dropWhile isPySpace).reverse.dropWhile isPySpace |>.reverse
    match cs with
    | '-' :: rest => (digitsVal rest).map (fun n => -(n : Int))
    | '+' :: rest => (digitsVal rest).map (fun n => (n : Int))
    | _ => (digitsVal cs).map (fun n => (n : Int))
  | _ => none

/-- Python `len(v)`: defined for strings, lists and dictionaries, raises
`TypeError` otherwise. -/
def pyLen : JVal → Except PyErr Nat
  | .s t => .ok t.length
  | .arr l => .ok l.length
  | .obj l => .ok l.length
  | _ => .error .typeError

/-- Python `needle in v`: substring test on strings, element-wise equality on
lists (a string compares unequal to any non-string without error), key lookup
on dictionaries, `TypeError` on anything else. -/
def pyContains (needle : String) : JVal → Except PyErr Bool
  | .s t => .ok (goSub t.data)
  | .arr l => .ok (l.any (fun v => match v with | .s t => t == needle | _ => false))
  | .obj l => .ok (l.any (fun kv => kv.1 == needle))
  | _ => .error .typeError
where
  goSub : List Char → Bool
    | [] => needle.data.isPrefixOf []
    | c :: t => needle.data.isPrefixOf (c :: t) || goSub t

/-- Code-point comparison of strings, matching Python's ordering on `str`. -/
def charListLe : List Char → List Char → Bool
  | [], _ => true
  | _ :: _, [] => false
  | a :: as, b :: bs => if a < b then true else if b < a then false else charListLe as bs

/-- Insert a string into a sorted list (helper for Python `sorted`). -/
def insertSorted (x : String) : List String → List String
  | [] => [x]
  | y :: t => if charListLe x.data y.data then x :: y :: t else y :: insertSorted x t

/-- Python `sorted` on a list of strings. -/
def sortStrings (l : List String) : List String :=
  l.foldr insertSorted []

/- MD5, as used by `hashlib.md5(...).hexdigest()` in src/data_validator.py.
   Machine words are naturals reduced modulo 2^32. -/

/-- Reduce modulo 2^32. -/
def u32 (n : Nat) : Nat := n % 4294967296

/-- Bitwise complement on a 32-bit word. -/
def notW (x : Nat) : Nat := 4294967295 - x

/-- Rotate a 32-bit word left by `s` bits. -/
def rotl (x s : Nat) : Nat := u32 (x <<< s) ||| (x >>> (32 - s))

/-- The MD5 sine-derived constant table. -/
def md5K : List Nat :=
  [0xd76aa478, 0xe8c7b756, 0x242070db, 0xc1bdceee,
   0xf57c0faf, 0x4787c62a, 0xa8304613, 0xfd469501,
   0x698098d8, 0x8b44f7af, 0xffff5bb1, 0x895cd7be,
   0x6b901122, 0xfd987193, 0xa679438e, 0x49b40821,
   0xf61e2562, 0xc040b340, 0x265e5a51, 0xe9b6c7aa,
   0xd62f105d, 0x02441453, 0xd8a1e681, 0xe7d3fbc8,
   0x21e1cde6, 0xc33707d6, 0xf4d50d87, 0x455a14ed,
   0xa9e3e905, 0xfcefa3f8, 0x676f02d9, 0x8d2a4c8a,
   0xfffa3942, 0x8771f681, 0x6d9d6122, 0xfde5380c,
   0xa4beea44, 0x4bdecfa9, 0xf6bb4b60, 0xbebfbc70,
   0x289b7ec6, 0xeaa127fa, 0xd4ef3085, 0x04881d05,
   0xd9d4d039, 0xe6db99e5, 0x1fa27cf8, 0xc4ac5665,
   0xf4292244, 0x432aff97, 0xab9423a7, 0xfc93a039,
   0x655b59c3, 0x8f0ccc92, 0xffeff47d, 0x85845dd1,
   0x6fa87e4f, 0xfe2ce6e0, 0xa3014314, 0x4e0811a1,
   0xf7537e82, 0xbd3af235, 0x2ad7d2bb, 0xeb86d391]

/-- The MD5 per-round left-rotation amounts. -/
def md5S : List Nat :=
  [7, 12, 17, 22, 7, 12, 17, 22, 7, 12, 17, 22, 7, 12, 17, 22,
   5, 9, 14, 20, 5, 9, 14, 20, 5, 9, 14, 20, 5, 9, 14, 20,
   4, 11, 16, 23, 4, 11, 16, 23, 4, 11, 16, 23, 4, 11, 16, 23,
   6, 10, 15, 21, 6, 10, 15, 21, 6, 10, 15, 21, 6, 10, 15, 21]

/-- The MD5 round function for step `i`. -/
def md5F (i b c d : Nat) : Nat :=
  if i < 16 then (b &&& c) ||| (notW b &&& d)
  else if i < 32 then (b &&& d) ||| (c &&& notW d)
  else if i < 48 then b ^^^ c ^^^ d
  else c ^^^ (b ||| notW d)

/-- The message-word index consumed at step `i`. -/
def md5G (i : Nat) : Nat :=
  if i < 16 then i
  else if i < 32 then (5 * i + 1) % 16
  else if i < 48 then (3 * i + 5) % 16
  else (7 * i) % 16

/-- Read the `j`-th little-endian 32-bit word of a 64-byte block. -/
def leWord (block : List Nat) (j : Nat) : Nat :=
  block.getD (4 * j) 0 + 256 * block.getD (4 * j + 1) 0 +
  65536 * block.getD (4 * j + 2) 0 + 16777216 * block.getD (4 * j + 3) 0

/-- One MD5 step on the register quadruple. -/
def md5Step (block : List Nat) (st : Nat × Nat × Nat × Nat) (i : Nat) :
    Nat × Nat × Nat × Nat :=
  let (a, b, c, d) := st
  let tmp := u32 (a + md5F i b c d + md5K.getD i 0 + leWord block (md5G i))
  (d, u32 (b + rotl tmp (md5S.getD i 0)), b, c)

/-- Process one 64-byte block into the running state. -/
def md5Block (st : Nat × Nat × Nat × Nat) (block : List Nat) :
    Nat × Nat × Nat × Nat :=
  let (a, b, c, d) := (List.range 64).foldl (md5Step block) st
  (u32 (st.1 + a), u32 (st.2.1 + b), u32 (st.2.2.1 + c), u32 (st.2.2.2 + d))

/-- MD5 padding: a 1-bit, zeros to 56 mod 64 bytes, then the 64-bit
little-endian bit length. -/
def md5Pad (msg : List Nat) : List Nat :=
  let z := (119 - msg.length % 64) % 64
  msg ++ [128] ++ List.replicate z 0 ++
    ((List.range 8).map (fun i => ((8 * msg.length) >>> (8 * i)) % 256))

/-- Split a byte list into 64-byte blocks. -/
def md5Chunks (bs : List Nat) : List (List Nat) :=
  if bs = [] then [] else bs.take 64 :: md5Chunks (bs.drop 64)
termination_by bs.length
decreasing_by
  simp only [List.length_drop]
  cases bs with
  | nil => simp_all
  | cons x t => simp; omega

/-- Serialize a 32-bit word little-endian. -/
def leBytes4 (n : Nat) : List Nat :=
  [n % 256, (n >>> 8) % 256, (n >>> 16) % 256, (n >>> 24) % 256]

/-- The 16-byte MD5 digest of a byte string. -/
def md5Bytes (msg : List Nat) : List Nat :=
  let st := (md5Chunks (md5Pad msg)).foldl md5Block
    (0x67452301, 0xefcdab89, 0x98badcfe, 0x10325476)
  leBytes4 st.1 ++ leBytes4 st.2.1 ++ leBytes4 st.2.2.1 ++ leBytes4 st.2.2.2

/-- Lowercase hexadecimal digit. -/
def hexDigit (n : Nat) : Char :=
  if n < 10 then Char.ofNat (48 + n) else Char.ofNat (87 + n)

/-- Lowercase hexadecimal rendering of a byte list. -/
def bytesHex (bs : List Nat) : String :=
  String.mk ((bs.map (fun b => [hexDigit (b / 16), hexDigit (b % 16)])).flatten)

/-- UTF-8 encoding of one character (Python `str.encode('utf-8')`). -/
def utf8Encode (c : Char) : List Nat :=
  let n := c.toNat
  if n < 128 then [n]
  else if n < 2048 then [192 + n / 64, 128 + n % 64]
  else if n < 65536 then [224 + n / 4096, 128 + (n / 64) % 64, 128 + n % 64]
  else [240 + n / 262144, 128 + (n / 4096) % 64, 128 + (n / 64) % 64, 128 + n % 64]

/-- UTF-8 bytes of a string. -/
def strBytes (t : String) : List Nat := (t.data.map utf8Encode).flatten

/-- `DataIntegrityValidator.calculate_checksum` (src/data_validator.py lines
133-135): the first 8 hex characters of the MD5 digest of the UTF-8 bytes. -/
def calculate_checksum (data : String) : String :=
  (bytesHex (md5Bytes (strBytes data))).take 8

/- The schema normalizer: the loop of `create_stable_html` in src/main.py,
   lines 225-255. -/

/-- The letter table `letters = "ABCDEFGHIJKLMNOPQRSTUVWXYZ"`. -/
def letters : String := "ABCDEFGHIJKLMNOPQRSTUVWXYZ"

/-- Python `letters[idx]`, a one-character string. -/
def letterAt (idx : Nat) : String :=
  String.singleton (letters.data.getD idx 'A')

/-- Python `a or b`: the left operand when truthy, otherwise the right one. -/
def pyOr (a b : JVal) : JVal := if pyTruthy a then a else b

/-- Drop a literal pattern from the head of the text, if present. -/
def afterLit (pat : String) (cs : List Char) : Option (List Char) :=
  if pat.data.isPrefixOf cs then some (cs.drop pat.length) else none

/-- Consume one-or-more whitespace characters (regex fragment). -/
def wsPlus : List Char → Option (List Char)
  | c :: t => if isPySpace c then some (t.dropWhile isPySpace) else none
  | [] => none

/-- Does a literal keyword followed by optional whitespace and an opening
parenthesis start here?  (regex fragments of shape `kw\s*\(`) -/
def parenAfter (pat : String) (cs : List Char) : Bool :=
  match afterLit pat cs with
  | some r => (r.dropWhile isPySpace).head? == some '('
  | none => false

/-- Does a literal keyword followed by at least one whitespace start here?
(regex fragments of shape `kw\s+`) -/
def wsAfter (pat : String) (cs : List Char) : Bool :=
  match afterLit pat cs with
  | some r => (wsPlus r).isSome
  | none => false

/-- One alternative of the code-detection regular expression of src/main.py
line 249 matches at this position. -/
def codeMarkerAt (cs : List Char) : Bool :=
  "#include".data.isPrefixOf cs ||
  (match afterLit "int" cs with
   | some r =>
     match wsPlus r with
     | some r2 => "main".data.isPrefixOf r2
     | none => false
   | none => false) ||
  "printf".data.isPrefixOf cs || "scanf".data.isPrefixOf cs ||
  parenAfter "for" cs || parenAfter "while" cs || parenAfter "if" cs ||
  wsAfter "void" cs || wsAfter "char" cs || wsAfter "float" cs ||
  wsAfter "double" cs

/-- Scan every position of the text for a code marker (`re.search`). -/
def hasCodeMarker (cs : List Char) : Bool :=
  codeMarkerAt cs ||
  (match cs with
   | [] => false
   | _ :: t => hasCodeMarker t)

/-- Canonical quiz record appended by the normalization loop (src/main.py
lines 250-255). -/
structure NRec where
  raw_question : String
  raw_options : List String
  raw_answer : String
  has_code : Bool
deriving DecidableEq, Repr

/-- Answer resolution of src/main.py lines 237-247: `ra = q.get("raw_answer")`,
then when that is `None`, the `correctOptionIndex` branch is tried first and
the `answer` branch only when no `correctOptionIndex` key exists.  The result
is the Python value bound to `ra` (`.null` embeds Python `None`). -/
def resolveAnswer (q : PyDict) : JVal :=
  match dictGetD q "raw_answer" .null with
  | .null =>
    if hasKey q "correctOptionIndex" then
      match pyInt (dictGetD q "correctOptionIndex" .null) with
      | some idx => if 0 ≤ idx ∧ idx < 26 then .s (letterAt idx.toNat) else .null
      | none => .null
    else if hasKey q "answer" then
      .s (pyStrip (pyStr (dictGetD q "answer" .null)))
    else .null
  | v => v

/-- One iteration of the normalization loop of `create_stable_html`
(src/main.py lines 228-255).  Field families are resolved by Python `or`
chains, a dictionary of options is flattened by sorted key, options are
string-coerced with `None` becoming `""`, and `has_code` is derived by
`re.search` on the resolved question value — which raises `TypeError` when
that value is a truthy non-string. -/
def normalize_record (q : PyDict) : Except PyErr NRec :=
  let rq := pyOr (dictGetD q "raw_question" .null)
    (pyOr (dictGetD q "question" .null)
      (pyOr (dictGetD q "title" .null) (.s "")))
  let ro0 := pyOr (dictGetD q "raw_options" .null)
    (pyOr (dictGetD q "options" .null) (.arr []))
  let ro1 := match ro0 with
    | .obj kvs =>
      JVal.arr ((sortStrings (kvs.map Prod.fst)).map (fun k => dictGetD kvs k .null))
    | v => v
  let ro2 : List JVal := match ro1 with | .arr l => l | _ => []
  let ro : List String := ro2.map (fun v => match v with | .null => "" | v => pyStr v)
  let ra := resolveAnswer q
  match rq with
  | .s t =>
    .ok { raw_question := t
          raw_options := ro
          raw_answer := match ra with | .null => "" | v => pyStr v
          has_code := hasCodeMarker t.data }
  | _ => .error .typeError

/-- The whole normalization loop: one canonical record per input dictionary,
an exception in any iteration aborting the list (`for q in questions or []`).
-/
def normalize_questions (questions : List PyDict) : Except PyErr (List NRec) :=
  questions.mapM normalize_record

/- The integrity validator: `DataIntegrityValidator` in src/data_validator.py.
   Issues and warnings are the dictionaries the Python code builds.  Each
   function also returns the record list it was handed, making explicit that
   the source only ever reads the records (the frame property of the
   validator). -/

/-- Issue appended when a required field is absent (severity `high`). -/
def missingFieldIssue (index : Nat) (field : String) : PyDict :=
  [("type", .s "missing_field"), ("question_index", .i index),
   ("field", .s field), ("severity", .s "high"),
   ("message", .s ("第" ++ toString index ++ "题缺少" ++ field ++ "字段"))]

/-- Issue appended when the question text is empty (severity `high`). -/
def emptyQuestionIssue (index : Nat) : PyDict :=
  [("type", .s "empty_question"), ("question_index", .i index),
   ("severity", .s "high"),
   ("message", .s ("第" ++ toString index ++ "题题目为空"))]

/-- Issue appended when the options slot is not a list (severity `medium`). -/
def invalidOptionsIssue (index : Nat) : PyDict :=
  [("type", .s "invalid_options"), ("question_index", .i index),
   ("severity", .s "medium"),
   ("message", .s ("第" ++ toString index ++ "题选项格式错误"))]

/-- Issue appended when fewer than two options exist (severity `medium`). -/
def insufficientOptionsIssue (index : Nat) : PyDict :=
  [("type", .s "insufficient_options"), ("question_index", .i index),
   ("severity", .s "medium"),
   ("message", .s ("第" ++ toString index ++ "题选项不足2个"))]

/-- Issue appended when the answer is empty (severity `medium`). -/
def emptyAnswerIssue (index : Nat) : PyDict :=
  [("type", .s "empty_answer"), ("question_index", .i index),
   ("severity", .s "medium"),
   ("message", .s ("第" ++ toString index ++ "题答案为空"))]

/-- The `required_fields` list of `check_single_question`. -/
def required_fields : List String := ["raw_question", "raw_answer", "raw_options"]

/-- `DataIntegrityValidator.check_single_question` (src/data_validator.py
lines 42-94).  `question.get("raw_question", "").strip()` raises
`AttributeError` when the key holds a non-string value such as `None`. -/
def check_single_question (question : PyDict) (index : Nat) :
    Except PyErr (List PyDict) := do
  let issues0 := (required_fields.filter (fun f => !hasKey question f)).map
    (fun f => missingFieldIssue index f)
  let rq ← pyStripMethod (dictGetD question "raw_question" (.s ""))
  let issues1 := issues0 ++ (if rq = "" then [emptyQuestionIssue index] else [])
  let options := dictGetD question "raw_options" (.arr [])
  let issues2 := issues1 ++
    (match options with
     | .arr l => if l.length < 2 then [insufficientOptionsIssue index] else []
     | _ => [invalidOptionsIssue index])
  let answer := dictGetD question "raw_answer" (.s "")
  let issues3 := issues2 ++
    (if pyStrip (pyStr answer) = "" then [emptyAnswerIssue index] else [])
  pure issues3

/-- Warning for fewer than four options (severity `low`, non-blocking). -/
def incompleteOptionsWarning (i : Nat) : PyDict :=
  [("type", .s "incomplete_options"), ("question_index", .i i),
   ("severity", .s "low"),
   ("message", .s ("第" ++ toString i ++ "题选项不足4个，已自动处理")),
   ("action", .s "display_with_warning")]

/-- Warning for a newline inside the question text. -/
def newlineWarning (i : Nat) : PyDict :=
  [("type", .s "newline_characters"), ("question_index", .i i),
   ("severity", .s "low"),
   ("message", .s "题目中包含换行符，将原样显示")]

/-- Warning for a quote character inside the question text. -/
def quoteWarning (i : Nat) : PyDict :=
  [("type", .s "quote_characters"), ("question_index", .i i),
   ("severity", .s "low"),
   ("message", .s "题目中包含引号，将原样显示")]

/-- One iteration of `generate_warnings` (src/data_validator.py lines
96-131): `len(question.get("raw_options", []))` and the containment tests
can raise `TypeError` on mistyped slots. -/
def warningsFor (question : PyDict) (i : Nat) : Except PyErr (List PyDict) := do
  let options := dictGetD question "raw_options" (.arr [])
  let n ← pyLen options
  let w1 := if n < 4 then [incompleteOptionsWarning i] else []
  let question_text := dictGetD question "raw_question" (.s "")
  let hNl ← pyContains "\n" question_text
  let w2 := if hNl then [newlineWarning i] else []
  let hDq ← pyContains dqs question_text
  let hSq ← pyContains sqs question_text
  let w3 := if hDq || hSq then [quoteWarning i] else []
  pure (w1 ++ w2 ++ w3)

/-- The `generate_warnings` loop over `enumerate(questions)`, threading the
(read-only) record list through. -/
def gwLoop : List PyDict → Nat → Except PyErr (List PyDict × List PyDict)
  | [], _ => .ok ([], [])
  | q :: rest, i => do
    let w ← warningsFor q (i + 1)
    let (wr, rest') ← gwLoop rest (i + 1)
    pure (w ++ wr, q :: rest')

/-- `DataIntegrityValidator.generate_warnings`, returning the warnings and
the record list exactly as the Python function leaves it. -/
def generate_warnings (questions : List PyDict) :
    Except PyErr (List PyDict × List PyDict) :=
  gwLoop questions 0

/-- The per-record loop of `validate_question_integrity`: collected issues,
the running `passed` flag (set to `False` whenever a record yields issues),
and the threaded record list. -/
def viLoop : List PyDict → Nat → Except PyErr (List PyDict × Bool × List PyDict)
  | [], _ => .ok ([], true, [])
  | q :: rest, i => do
    let issues ← check_single_question q (i + 1)
    let (restIssues, restPassed, rest') ← viLoop rest (i + 1)
    pure (issues ++ restIssues, issues.isEmpty && restPassed, q :: rest')

/-- The validation-report dictionary built by `validate_question_integrity`
(src/data_validator.py lines 19-26). -/
structure ValidationResult where
  original_length : Nat
  extracted_count : Nat
  checksum : String
  issues : List PyDict
  warnings : List PyDict
  passed : Bool

/-- `DataIntegrityValidator.validate_question_integrity` (src/data_validator.py
lines 16-40), returning the report together with the record list it leaves
behind. -/
def validate_question_integrity (original_text : String)
    (extracted_questions : List PyDict) :
    Except PyErr (ValidationResult × List PyDict) := do
  let (issues, passed, qs1) ← viLoop extracted_questions 0
  let (warnings, qs2) ← generate_warnings qs1
  pure ({ original_length := original_text.length
          extracted_count := extracted_questions.length
          checksum := calculate_checksum original_text
          issues := issues
          warnings := warnings
          passed := passed }, qs2)

/-- The report dictionary built by `create_integrity_report`. -/
structure IntegrityReport where
  timestamp : String
  original_text_length : Nat
  total_questions : Nat
  checksum : String
  validation : ValidationResult
  recommendations : List String

/-- Does a warning dictionary carry the given `type` value? -/
def typeIs (w : PyDict) (t : String) : Bool :=
  match dictGetD w "type" .null with
  | .s u => u == t
  | _ => false

/-- Does an issue dictionary carry the given `severity` value? -/
def sevIs (issue : PyDict) (t : String) : Bool :=
  match dictGetD issue "severity" .null with
  | .s u => u == t
  | _ => false

/-- `DataIntegrityValidator.create_integrity_report` (src/data_validator.py
lines 137-159).  `get_timestamp` reads the wall clock, outside the pure
core, so the timestamp is a parameter.  `str(questions)` is the Python
representation of the record list. -/
def create_integrity_report (questions : List PyDict) (original_text : String)
    (timestamp : String) : Except PyErr (IntegrityReport × List PyDict) := do
  let checksum := calculate_checksum (pyStr (.arr (questions.map JVal.obj)))
  let (validation, qs') ← validate_question_integrity original_text questions
  let recs0 : List String :=
    if questions.length < 10 then ["题目数量较少，建议检查源文件内容"] else []
  let recs1 := recs0 ++
    (if validation.warnings.any (fun w => typeIs w "incomplete_options")
     then ["部分题目选项不完整，但将正常显示"] else [])
  pure ({ timestamp := timestamp
          original_text_length := original_text.length
          total_questions := questions.length
          checksum := checksum
          validation := validation
          recommendations := recs1 }, qs')

/- The randomization engine: `randomizeQuestions` in the script emitted by
   `create_stable_html` (src/main.py lines 377-404; identically in
   src/stable_api.py lines 272-299).  `shuffleArray` is an unbiased
   Fisher-Yates shuffle; its output is modelled by quantifying over the
   permutation it produced. -/

/-- A JavaScript value in the `raw_answer` slot: a string, or `undefined`
(the result of indexing `'ABCD'` out of range). -/
inductive JSVal where
  | str : String → JSVal
  | undefined : JSVal
deriving DecidableEq, Repr

/-- Characters `ToString` gives a JavaScript value (for `indexOf`):
`undefined` coerces to the string "undefined". -/
def jsValChars : JSVal → List Char
  | .str t => t.data
  | .undefined => "undefined".data

/-- A question record held by the emitted script: the JSON-serialized
canonical record. -/
structure JSRec where
  raw_question : String
  raw_options : List String
  raw_answer : JSVal
  has_code : Bool
deriving DecidableEq, Repr

/-- The character table `'ABCD'`. -/
def abcd : List Char := ['A', 'B', 'C', 'D']

/-- JavaScript `hay.indexOf(needle)`: the first position where `needle`
occurs as a substring, `-1` when it never does, `0` for the empty needle. -/
def jsStrIndexOf (hay needle : List Char) : Int :=
  match hay with
  | [] => if needle.isEmpty then 0 else -1
  | c :: t =>
    if needle.isPrefixOf (c :: t) then 0
    else
      let r := jsStrIndexOf t needle
      if r = -1 then -1 else r + 1

/-- JavaScript `'ABCD'[i]`: a one-letter string for `0 ≤ i < 4`, `undefined`
otherwise (in particular for `i = -1`). -/
def charAtABCD (i : Int) : JSVal :=
  if 0 ≤ i ∧ i < 4 then .str (String.singleton (abcd.getD i.toNat 'A')) else .undefined

/-- `raw_options.map((opt, idx) => ({option: opt, originalIndex: idx}))`,
with the running index made explicit. -/
def optionPairsFrom : List String → Nat → List (String × Nat)
  | [], _ => []
  | o :: t, i => (o, i) :: optionPairsFrom t (i + 1)

/-- The option/original-index pairs of a record, before shuffling. -/
def optionPairs (opts : List String) : List (String × Nat) :=
  optionPairsFrom opts 0

/-- JavaScript `Array.prototype.findIndex`: first index satisfying the
predicate, `-1` when none does. -/
def jsFindIndex (p : α → Bool) : List α → Int
  | [] => -1
  | x :: t =>
    if p x then 0
    else
      let r := jsFindIndex p t
      if r = -1 then -1 else r + 1

/-- The body of `questions.forEach(q => ...)` inside `randomizeQuestions`
(src/main.py lines 384-402): given the pair list `shuffleArray` produced for
this record, save `'ABCD'.indexOf(q.raw_answer)`, take the shuffled options,
locate the pair carrying the saved original index, and write back
`'ABCD'[newCorrectIndex]`.  Records with an empty option array are left
untouched by the guard. -/
def randomizeRecord (q : JSRec) (shuffledPairs : List (String × Nat)) : JSRec :=
  if 0 < q.raw_options.length then
    let correctIndex := jsStrIndexOf abcd (jsValChars q.raw_answer)
    let newOptions := shuffledPairs.map Prod.fst
    let newCorrectIndex :=
      jsFindIndex (fun pair => ((pair.2 : Int) == correctIndex)) shuffledPairs
    { q with raw_options := newOptions, raw_answer := charAtABCD newCorrectIndex }
  else q

/-- `randomizeQuestions` (src/main.py lines 378-404): in `"random"` mode the
question list is replaced by the permutation `shuffleArray` produced and each
record's options are permuted by `randomizeRecord`; in any other mode nothing
happens.  `shuffled` stands for the output of `shuffleArray(questions)` and
`pairsFor` for the per-record outputs of `shuffleArray(optionPairs ...)`. -/
def randomizeQuestions (mode : String) (questions shuffled : List JSRec)
    (pairsFor : List (List (String × Nat))) : List JSRec :=
  if mode == "random" then
    (shuffled.zip pairsFor).map (fun p => randomizeRecord p.1 p.2)
  else questions

/- Helper lemmas. -/

/-- Extract the canonical record from a successful normalization. -/
def okN : Except PyErr NRec → Option NRec
  | .ok r => some r
  | .error _ => none

/-- Extract the report from a successful validation. -/
def okReport : Except PyErr (ValidationResult × List PyDict) → Option ValidationResult
  | .ok p => some p.1
  | .error _ => none

/-- An issue dictionary is blocking when its severity is high or medium (the
only two severities `check_single_question` produces). -/
def blockingSev (x : PyDict) : Bool :=
  sevIs x "high" || sevIs x "medium"

/-- Python `d[k] = v` on a dictionary: replace the value of an existing key
in place, or append a fresh binding. -/
def setKey (d : PyDict) (k : String) (v : JVal) : PyDict :=
  if hasKey d k then d.map (fun kv => if kv.1 == k then (k, v) else kv)
  else d ++ [(k, v)]

theorem sevIs_missingFieldIssue (i : Nat) (f : String) :
    sevIs (missingFieldIssue i f) "high" = true := rfl

theorem sevIs_emptyQuestionIssue (i : Nat) :
    sevIs (emptyQuestionIssue i) "high" = true := rfl

theorem sevIs_invalidOptionsIssue (i : Nat) :
    sevIs (invalidOptionsIssue i) "medium" = true := rfl

theorem sevIs_insufficientOptionsIssue (i : Nat) :
    sevIs (insufficientOptionsIssue i) "medium" = true := rfl

theorem sevIs_emptyAnswerIssue (i : Nat) :
    sevIs (emptyAnswerIssue i) "medium" = true := rfl

/-- Every issue `check_single_question` emits has severity high or medium. -/
theorem check_single_question_severity (q : PyDict) (i : Nat) :
    match check_single_question q i with
    | .ok iss => ∀ x ∈ iss, blockingSev x = true
    | .error _ => True := by
  unfold check_single_question
  cases h : pyStripMethod (dictGetD q "raw_question" (.s "")) with
  | error e => simp [h, bind, Except.bind]
  | ok rq =>
    simp only [h, bind, Except.bind, pure, Except.pure]
    intro x hx
    simp only [List.mem_append, List.mem_map, List.mem_filter] at hx
    unfold blockingSev
    rcases hx with ((⟨f, hf, rfl⟩ | hx) | hx) | hx
    · simp [sevIs_missingFieldIssue]
    · split at hx <;> simp_all [sevIs_emptyQuestionIssue]
    · split at hx
      · split at hx <;> simp_all [sevIs_insufficientOptionsIssue]
      · simp_all [sevIs_invalidOptionsIssue]
    · split at hx <;> simp_all [sevIs_emptyAnswerIssue]

/-- Behaviour of the per-record validation loop: the `passed` flag records
exactly whether every per-record issue list was empty, the records are
returned untouched, and every collected issue is high- or medium-severity. -/
theorem viLoop_spec (qs : List PyDict) (i : Nat) :
    match viLoop qs i with
    | .ok (iss, passed, qs') =>
        passed = iss.isEmpty ∧ qs' = qs ∧ ∀ x ∈ iss, blockingSev x = true
    | .error _ => True := by
  induction qs generalizing i with
  | nil => simp [viLoop]
  | cons q rest ih =>
    unfold viLoop
    cases hc : check_single_question q (i + 1) with
    | error e => simp [hc, bind, Except.bind]
    | ok issues =>
      have hsev := check_single_question_severity q (i + 1)
      rw [hc] at hsev
      cases hr : viLoop rest (i + 1) with
      | error e => simp [hc, hr, bind, Except.bind]
      | ok trip =>
        obtain ⟨restIssues, restPassed, rest'⟩ := trip
        have ihr := ih (i + 1)
        rw [hr] at ihr
        obtain ⟨hp, hq, hsev'⟩ := ihr
        simp only [hc, hr, bind, Except.bind, pure, Except.pure]
        refine ⟨?_, by rw [hq], ?_⟩
        · rw [hp]
          cases issues <;> simp
        · intro x hx
          rcases List.mem_append.mp hx with h1 | h2
          · exact hsev x h1
          · exact hsev' x h2

/-- The warnings loop returns the record list untouched. -/
theorem gwLoop_frame (qs : List PyDict) (i : Nat) :
    match gwLoop qs i with
    | .ok (_, qs') => qs' = qs
    | .error _ => True := by
  induction qs generalizing i with
  | nil => simp [gwLoop]
  | cons q rest ih =>
    unfold gwLoop
    cases hw : warningsFor q (i + 1) with
    | error e => simp [hw, bind, Except.bind]
    | ok w =>
      cases hr : gwLoop rest (i + 1) with
      | error e => simp [hw, hr, bind, Except.bind]
      | ok pr =>
        obtain ⟨wr, rest'⟩ := pr
        have ihr := ih (i + 1)
        rw [hr] at ihr
        simp only [hw, hr, bind, Except.bind, pure, Except.pure]
        rw [ihr]

/-- `findIndex` returns `-1` when no element satisfies the predicate. -/
theorem jsFindIndex_eq_neg_one {α : Type} (p : α → Bool) (l : List α)
    (h : ∀ x ∈ l, p x = false) : jsFindIndex p l = -1 := by
  induction l with
  | nil => rfl
  | cons a t ih =>
    unfold jsFindIndex
    rw [h a (List.mem_cons_self a t)]
    simp [ih (fun x hx => h x (List.mem_cons_of_mem a hx))]

/-- When some element satisfies the predicate, `findIndex` returns a valid
position whose element satisfies it. -/
theorem jsFindIndex_spec {α : Type} (p : α → Bool) (l : List α) (x : α)
    (hx : x ∈ l) (hp : p x = true) :
    ∃ j : Nat, jsFindIndex p l = (j : Int) ∧ j < l.length ∧
      ∃ y, l[j]? = some y ∧ p y = true := by
  induction l with
  | nil => cases hx
  | cons a t ih =>
    cases ha : p a with
    | true =>
      refine ⟨0, by simp [jsFindIndex, ha], by simp, a, by simp, ha⟩
    | false =>
      have hxt : x ∈ t := by
        rcases List.mem_cons.mp hx with rfl | h
        · rw [hp] at ha; cases ha
        · exact h
      obtain ⟨j, hj, hjl, y, hy, hpy⟩ := ih hxt
      have hlen : j + 1 < (a :: t).length := by
        simp only [List.length_cons]
        omega
      refine ⟨j + 1, ?_, hlen, y, by simpa using hy, hpy⟩
      unfold jsFindIndex
      rw [ha, hj]
      simp

/-- The pair list keeps the length of the option list. -/
theorem optionPairsFrom_length (opts : List String) (i : Nat) :
    (optionPairsFrom opts i).length = opts.length := by
  induction opts generalizing i with
  | nil => rfl
  | cons o t ih => simp [optionPairsFrom, ih]

/-- Membership in the indexed pair list. -/
theorem mem_optionPairsFrom (opts : List String) (i : Nat) (x : String × Nat) :
    x ∈ optionPairsFrom opts i ↔ ∃ k, x.2 = i + k ∧ opts[k]? = some x.1 := by
  induction opts generalizing i with
  | nil => simp [optionPairsFrom]
  | cons o t ih =>
    simp only [optionPairsFrom, List.mem_cons, ih]
    constructor
    · rintro (rfl | ⟨k, hk, hget⟩)
      · exact ⟨0, by simp⟩
      · exact ⟨k + 1, by omega, by simpa using hget⟩
    · rintro ⟨k, hk, hget⟩
      cases k with
      | zero =>
        left
        simp only [List.getElem?_cons_zero, Option.some.injEq] at hget
        obtain ⟨a, b⟩ := x
        simp_all
      | succ m =>
        right
        exact ⟨m, by omega, by simpa using hget⟩

/-- Membership in `optionPairs`: exactly the option values paired with their
original positions. -/
theorem mem_optionPairs (opts : List String) (x : String × Nat) :
    x ∈ optionPairs opts ↔ opts[x.2]? = some x.1 := by
  unfold optionPairs
  rw [mem_optionPairsFrom]
  constructor
  · rintro ⟨k, hk, hget⟩
    rwa [show x.2 = k by omega]
  · intro h
    exact ⟨x.2, by omega, h⟩

/-- Writing `'ABCD'[j]` for `j < 4` and reading it back with
`'ABCD'.indexOf` recovers `j`. -/
theorem abcd_roundtrip (j : Nat) (h : j < 4) :
    jsStrIndexOf abcd (jsValChars (charAtABCD (j : Int))) = (j : Int) := by
  interval_cases j <;> decide

/-- Core tracking property of the option shuffle in `randomizeRecord`: for a
record with at most four options whose answer letter designates a valid
original position `c`, the shuffled record's new answer letter designates the
position now holding the very option that sat at position `c` (tracked via
`originalIndex`, so duplicate option text is immaterial). -/
theorem randomizeRecord_tracks (q : JSRec) (pairs : List (String × Nat)) (c : Nat)
    (hperm : pairs.Perm (optionPairs q.raw_options))
    (hlen : q.raw_options.length ≤ 4)
    (hidx : jsStrIndexOf abcd (jsValChars q.raw_answer) = (c : Int))
    (hc : c < q.raw_options.length) :
    ∃ j : Nat, j < (randomizeRecord q pairs).raw_options.length ∧
      jsStrIndexOf abcd (jsValChars (randomizeRecord q pairs).raw_answer) = (j : Int) ∧
      (randomizeRecord q pairs).raw_options[j]? = q.raw_options[c]? := by
  have h0 : 0 < q.raw_options.length := Nat.lt_of_le_of_lt (Nat.zero_le c) hc
  have hplen : pairs.length = q.raw_options.length := by
    rw [hperm.length_eq]
    exact optionPairsFrom_length _ _
  obtain ⟨a, ha⟩ : ∃ a, q.raw_options[c]? = some a := by
    rw [List.getElem?_eq_getElem hc]
    exact ⟨_, rfl⟩
  have hmem : (a, c) ∈ pairs := by
    rw [hperm.mem_iff, mem_optionPairs]
    exact ha
  have hpred : (fun pair : String × Nat => ((pair.2 : Int) == (c : Int))) (a, c) = true := by
    simp
  obtain ⟨j, hj, hjl, y, hy, hpy⟩ :=
    jsFindIndex_spec (fun pair : String × Nat => ((pair.2 : Int) == (c : Int))) pairs (a, c) hmem hpred
  have hy2 : y.2 = c := by
    simp only [beq_iff_eq, Int.natCast_inj] at hpy
    exact hpy
  have hymem : y ∈ pairs := by
    rcases List.getElem?_eq_some.mp hy with ⟨hlt, hg⟩
    exact hg ▸ List.getElem_mem hlt
  have hy1 : y.1 = a := by
    have := (mem_optionPairs q.raw_options y).mp (hperm.mem_iff.mp hymem)
    rw [hy2, ha] at this
    exact (Option.some.injEq _ _).mp this.symm
  have hres : randomizeRecord q pairs =
      { q with raw_options := pairs.map Prod.fst,
               raw_answer := charAtABCD (jsFindIndex
                 (fun pair => ((pair.2 : Int) == jsStrIndexOf abcd (jsValChars q.raw_answer)))
                 pairs) } := by
    unfold randomizeRecord
    rw [if_pos h0]
  refine ⟨j, ?_, ?_, ?_⟩
  · rw [hres]
    simpa using hjl
  · rw [hres]
    simp only [hidx]
    rw [hj]
    exact abcd_roundtrip j (by omega)
  · rw [hres]
    simp only [List.getElem?_map, hy, Option.map_some']
    rw [hy1, ha]

/-- Replacing the value at one key leaves lookups of other keys unchanged. -/
theorem find?_map_setKey (t : PyDict) (k k' : String) (v : JVal) (h : k' ≠ k) :
    (t.map (fun kv => if kv.1 == k then (k, v) else kv)).find? (fun kv => kv.1 == k') =
      t.find? (fun kv => kv.1 == k') := by
  have hkk : (k == k') = false := by
    simp only [beq_eq_false_iff_ne, ne_eq]
    exact fun e => h e.symm
  induction t with
  | nil => rfl
  | cons kv t ih =>
    simp only [List.map_cons]
    by_cases hk : (kv.1 == k) = true
    · have hkv : kv.1 = k := by simpa using hk
      rw [if_pos hk]
      rw [List.find?_cons_of_neg _ (by simp [hkk])]
      rw [List.find?_cons_of_neg _ (by simp [hkv, hkk])]
      exact ih
    · rw [if_neg hk]
      cases hpred : (kv.1 == k') with
      | true =>
        rw [List.find?_cons_of_pos _ (by simp [hpred]),
            List.find?_cons_of_pos _ (by simp [hpred])]
      | false =>
        rw [List.find?_cons_of_neg _ (by simp [hpred]),
            List.find?_cons_of_neg _ (by simp [hpred])]
        exact ih

/-- Appending a binding for a different key leaves lookups unchanged. -/
theorem find?_append_singleton (t : PyDict) (k k' : String) (v : JVal) (h : k' ≠ k) :
    (t ++ [(k, v)]).find? (fun kv => kv.1 == k') = t.find? (fun kv => kv.1 == k') := by
  have hkk : (k == k') = false := by
    simp only [beq_eq_false_iff_ne, ne_eq]
    exact fun e => h e.symm
  induction t with
  | nil =>
    rw [List.nil_append, List.find?_cons_of_neg _ (by simp [hkk])]
  | cons kv t ih =>
    simp only [List.cons_append]
    cases hpred : (kv.1 == k') with
    | true =>
      rw [List.find?_cons_of_pos _ (by simp [hpred]),
          List.find?_cons_of_pos _ (by simp [hpred])]
    | false =>
      rw [List.find?_cons_of_neg _ (by simp [hpred]),
          List.find?_cons_of_neg _ (by simp [hpred])]
      exact ih

/-- Key lookups other than the written key are unaffected by `setKey`. -/
theorem find?_setKey_ne (d : PyDict) (k k' : String) (v : JVal) (h : k' ≠ k) :
    (setKey d k v).find? (fun kv => kv.1 == k') = d.find? (fun kv => kv.1 == k') := by
  unfold setKey
  split
  · exact find?_map_setKey d k k' v h
  · exact find?_append_singleton d k k' v h

/-- Python `d.get` on the modified dictionary, for a different key. -/
theorem dictGetD_setKey_ne (d : PyDict) (k k' : String) (v dflt : JVal)
    (h : k' ≠ k) : dictGetD (setKey d k v) k' dflt = dictGetD d k' dflt := by
  unfold dictGetD
  rw [find?_setKey_ne d k k' v h]

/-- Python `k' in d` on the modified dictionary, for a different key. -/
theorem hasKey_setKey_ne (d : PyDict) (k k' : String) (v : JVal)
    (h : k' ≠ k) : hasKey (setKey d k v) k' = hasKey d k' := by
  unfold hasKey
  rw [find?_setKey_ne d k k' v h]

/-- A list all of whose elements satisfy a predicate answers `any` with its
non-emptiness. -/
theorem any_eq_bnot_isEmpty {α : Type} (l : List α) (p : α → Bool)
    (h : ∀ x ∈ l, p x = true) : l.any p = !l.isEmpty := by
  cases l with
  | nil => rfl
  | cons x t => simp [h x (List.mem_cons_self x t)]

/-- C4: for every input, the validation report's `passed` field is false if
and only if at least one record produced at least one issue of any severity —
`passed` always equals the emptiness of the collected issue list, so a
collection whose records produce only warnings keeps `passed = true`. -/
theorem validation_passed_iff_no_issue (text : String) (qs : List PyDict) :
    match validate_question_integrity text qs with
    | .ok (r, _) => r.passed = r.issues.isEmpty
    | .error _ => True := by
  unfold validate_question_integrity
  have hv := viLoop_spec qs 0
  cases hl : viLoop qs 0 with
  | error e => simp [bind, Except.bind]
  | ok trip =>
    obtain ⟨iss, passed, qs1⟩ := trip
    rw [hl] at hv
    obtain ⟨hp, -, -⟩ := hv
    cases hw : generate_warnings qs1 with
    | error e => simp [bind, Except.bind, hw]
    | ok pr =>
      obtain ⟨ws, qs2⟩ := pr
      simp only [bind, Except.bind, hw, pure, Except.pure]
      exact hp

/-- C5 (amended): the report's `passed` field is true if and only if no
record produced an issue of severity high **or medium** — every issue the
checker emits carries one of those two severities, so any issue at all,
including a medium-severity one alone, makes `passed` false. -/
theorem validation_passed_iff_no_blocking_issue (text : String) (qs : List PyDict) :
    match validate_question_integrity text qs with
    | .ok (r, _) => r.passed = !(r.issues.any blockingSev)
    | .error _ => True := by
  unfold validate_question_integrity
  have hv := viLoop_spec qs 0
  cases hl : viLoop qs 0 with
  | error e => simp [bind, Except.bind]
  | ok trip =>
    obtain ⟨iss, passed, qs1⟩ := trip
    rw [hl] at hv
    obtain ⟨hp, -, hsev⟩ := hv
    cases hw : generate_warnings qs1 with
    | error e => simp [bind, Except.bind, hw]
    | ok pr =>
      obtain ⟨ws, qs2⟩ := pr
      simp only [bind, Except.bind, hw, pure, Except.pure]
      rw [hp, any_eq_bnot_isEmpty iss blockingSev hsev, Bool.not_not]

/-- C9 (amended): the `checksum` field of the report returned by
`validate_question_integrity` is computed over the original text alone, so it
is entirely independent of the record list handed in. -/
theorem report_checksum_is_text_checksum (text : String) (qs : List PyDict) :
    match validate_question_integrity text qs with
    | .ok (r, _) => r.checksum = calculate_checksum text
    | .error _ => True := by
  unfold validate_question_integrity
  cases hl : viLoop qs 0 with
  | error e => simp [bind, Except.bind]
  | ok trip =>
    obtain ⟨iss, passed, qs1⟩ := trip
    cases hw : generate_warnings qs1 with
    | error e => simp [bind, Except.bind, hw]
    | ok pr =>
      obtain ⟨ws, qs2⟩ := pr
      simp only [bind, Except.bind, hw, pure, Except.pure]

/-- C10: neither `validate_question_integrity` nor `create_integrity_report`
modifies its input — the record list threaded through every loop comes back
exactly as supplied, with no issue or warning attached to the records
themselves (all findings live only in the returned report). -/
theorem validation_leaves_records_unchanged (text : String) (qs : List PyDict)
    (ts : String) :
    (match validate_question_integrity text qs with
     | .ok (_, qs') => qs' = qs
     | .error _ => True) ∧
    (match create_integrity_report qs text ts with
     | .ok (_, qs') => qs' = qs
     | .error _ => True) := by
  have hval : match validate_question_integrity text qs with
      | .ok (_, qs') => qs' = qs
      | .error _ => True := by
    unfold validate_question_integrity
    have hv := viLoop_spec qs 0
    cases hl : viLoop qs 0 with
    | error e => simp [bind, Except.bind]
    | ok trip =>
      obtain ⟨iss, passed, qs1⟩ := trip
      rw [hl] at hv
      obtain ⟨-, hq1, -⟩ := hv
      have hg := gwLoop_frame qs1 0
      cases hw : gwLoop qs1 0 with
      | error e => simp [bind, Except.bind, generate_warnings, hw]
      | ok pr =>
        obtain ⟨ws, qs2⟩ := pr
        rw [hw] at hg
        simp only [bind, Except.bind, generate_warnings, hw, pure, Except.pure]
        rw [hg, hq1]
  refine ⟨hval, ?_⟩
  unfold create_integrity_report
  cases hv2 : validate_question_integrity text qs with
  | error e => simp [bind, Except.bind]
  | ok pr =>
    obtain ⟨r, qs'⟩ := pr
    rw [hv2] at hval
    simp only [bind, Except.bind, pure, Except.pure]
    exact hval

/-- C2: normalization converts `correctOptionIndex` to a letter after
checking the index only against the 26-letter table, never against the number
of options: index 3 with a 2-option record yields answer letter "D", whose
designated position (`'ABCD'.indexOf`, as the grading script derives it) is
3 — neither the sentinel −1 nor a valid index below 2. -/
theorem normalize_index_beyond_option_count :
    normalize_record
      [("question", JVal.s "q"), ("options", JVal.arr [JVal.s "a", JVal.s "b"]),
       ("correctOptionIndex", JVal.i 3)] =
      .ok { raw_question := "q", raw_options := ["a", "b"], raw_answer := "D",
            has_code := false } ∧
    jsStrIndexOf abcd (jsValChars (JSVal.str "D")) = 3 ∧
    (0 : Int) ≤ 3 ∧ (2 : Int) ≤ 3 :=
  ⟨rfl, rfl, by decide, by decide⟩

/-- C3: normalization is not total — a record whose question slot holds a
truthy non-string (here the integer 123) makes `re.search` raise `TypeError`,
so the loop aborts and produces no canonical records at all instead of one
record per input. -/
theorem normalize_raises_on_nonstring_question :
    normalize_questions [[("question", JVal.i 123)]] = .error .typeError := rfl

/-- C6: the validator raises instead of reporting — a record whose
`raw_question` key holds `None` makes `question.get("raw_question",
"").strip()` raise `AttributeError`; likewise the normalizer raises
`TypeError` on a truthy non-string question value. -/
theorem validator_raises_on_null_question :
    check_single_question
      [("raw_question", JVal.null), ("raw_answer", JVal.s "A"),
       ("raw_options", JVal.arr [JVal.s "a", JVal.s "b"])] 1 =
      .error .attributeError ∧
    normalize_record [("raw_question", JVal.i 5)] = .error .typeError :=
  ⟨rfl, rfl⟩

/-- C5 counterexample: a record with one option produces a single
medium-severity issue (insufficient options) and no high-severity issue, yet
the report's `passed` field is false — refuting "medium issues alone do not
make `passed` false". -/
theorem medium_issue_fails_validation :
    (okReport (validate_question_integrity "t"
      [[("raw_question", JVal.s "q"), ("raw_answer", JVal.s "A"),
        ("raw_options", JVal.arr [JVal.s "x"])]])).map
      (fun r => (r.passed, r.issues.any (fun x => sevIs x "high"), r.issues.isEmpty)) =
      some (false, false, false) := rfl

/-- C9 counterexample: two validations of the same original text "T", one
with zero records and one with one record, return reports with the same
`checksum` field even though the record lists differ (extracted counts 0 and
1) — refuting "different record lists yield different report checksums". -/
theorem report_checksum_ignores_records :
    (okReport (validate_question_integrity "T" [])).map ValidationResult.checksum =
      (okReport (validate_question_integrity "T"
        [[("raw_question", JVal.s "Q"), ("raw_answer", JVal.s "A"),
          ("raw_options", JVal.arr [JVal.s "x", JVal.s "y"])]])).map
        ValidationResult.checksum ∧
    (okReport (validate_question_integrity "T" [])).map
      ValidationResult.extracted_count = some 0 ∧
    (okReport (validate_question_integrity "T"
      [[("raw_question", JVal.s "Q"), ("raw_answer", JVal.s "A"),
        ("raw_options", JVal.arr [JVal.s "x", JVal.s "y"])]])).map
      ValidationResult.extracted_count = some 1 :=
  ⟨rfl, rfl, rfl⟩

/-- C8 counterexample: with `raw_answer` absent and both `answer` ("B") and
`correctOptionIndex` (0) present, the canonical answer is "A" — derived from
`correctOptionIndex`, not from the `answer` field as the claim requires. -/
theorem normalize_prefers_correct_option_index :
    normalize_record
      [("question", JVal.s "q"), ("options", JVal.arr [JVal.s "x", JVal.s "y", JVal.s "z"]),
       ("answer", JVal.s "B"), ("correctOptionIndex", JVal.i 0)] =
      .ok { raw_question := "q", raw_options := ["x", "y", "z"], raw_answer := "A",
            has_code := false } := rfl

/-- C8 (amended): the answer slot is resolved in the priority order
`raw_answer`, then `correctOptionIndex`, then `answer`: whenever `raw_answer`
is absent (or `None`) and a `correctOptionIndex` key is present, the value of
the `answer` field has no influence on the canonical record at all. -/
theorem normalize_ignores_answer_when_index_present (q : PyDict) (v : JVal)
    (h1 : dictGetD q "raw_answer" JVal.null = JVal.null)
    (h2 : hasKey q "correctOptionIndex" = true) :
    normalize_record (setKey q "answer" v) = normalize_record q := by
  have hget : ∀ k' dflt, k' ≠ "answer" →
      dictGetD (setKey q "answer" v) k' dflt = dictGetD q k' dflt :=
    fun k' dflt hk => dictGetD_setKey_ne q "answer" k' v dflt hk
  have hra : resolveAnswer (setKey q "answer" v) = resolveAnswer q := by
    unfold resolveAnswer
    rw [hget "raw_answer" JVal.null (by decide), h1,
        hasKey_setKey_ne q "answer" "correctOptionIndex" v (by decide), h2,
        hget "correctOptionIndex" JVal.null (by decide)]
    simp
  unfold normalize_record
  rw [hget "raw_question" JVal.null (by decide),
      hget "question" JVal.null (by decide),
      hget "title" JVal.null (by decide),
      hget "raw_options" JVal.null (by decide),
      hget "options" JVal.null (by decide),
      hra]

/-- Witness for the amended C8 theorem at a concrete dictionary: adding an
`answer` binding "B" to a record that resolves its answer from
`correctOptionIndex` leaves the canonical record unchanged. -/
theorem normalize_ignores_answer_when_index_present_witness :
    dictGetD [("question", JVal.s "w"), ("correctOptionIndex", JVal.i 1)]
      "raw_answer" JVal.null = JVal.null ∧
    hasKey [("question", JVal.s "w"), ("correctOptionIndex", JVal.i 1)]
      "correctOptionIndex" = true ∧
    normalize_record (setKey [("question", JVal.s "w"), ("correctOptionIndex", JVal.i 1)]
      "answer" (JVal.s "B")) =
      normalize_record [("question", JVal.s "w"), ("correctOptionIndex", JVal.i 1)] :=
  ⟨rfl, rfl, normalize_ignores_answer_when_index_present
    [("question", JVal.s "w"), ("correctOptionIndex", JVal.i 1)] (JVal.s "B") rfl rfl⟩

/-- C7 (amended): in random mode, a record with a non-empty option list whose
answer designates the sentinel (−1, `'ABCD'.indexOf` finds no letter) comes
out of the permutation with `raw_answer` set to JavaScript `undefined` — not
with its original answer value — although the index re-derived from that
undefined answer is again the sentinel −1, so still no option is marked
correct. -/
theorem randomize_keeps_derived_sentinel (qs shuffled : List JSRec)
    (ps : List (List (String × Nat))) (q : JSRec) (pairs : List (String × Nat))
    (hmem : (q, pairs) ∈ shuffled.zip ps)
    (hperm : pairs.Perm (optionPairs q.raw_options))
    (hidx : jsStrIndexOf abcd (jsValChars q.raw_answer) = -1)
    (hne : 0 < q.raw_options.length) :
    randomizeRecord q pairs ∈ randomizeQuestions "random" qs shuffled ps ∧
    (randomizeRecord q pairs).raw_answer = JSVal.undefined ∧
    jsStrIndexOf abcd (jsValChars (randomizeRecord q pairs).raw_answer) = -1 := by
  have hfi : jsFindIndex (fun pair : String × Nat => ((pair.2 : Int) == (-1 : Int)))
      pairs = -1 := by
    apply jsFindIndex_eq_neg_one
    intro x hx
    simp only [beq_eq_false_iff_ne, ne_eq]
    omega
  have hr : randomizeRecord q pairs =
      { q with raw_options := pairs.map Prod.fst, raw_answer := JSVal.undefined } := by
    unfold randomizeRecord
    rw [if_pos hne, hidx]
    simp [hfi, charAtABCD]
  have hq : randomizeQuestions "random" qs shuffled ps =
      (shuffled.zip ps).map (fun p => randomizeRecord p.1 p.2) := rfl
  refine ⟨?_, by rw [hr], ?_⟩
  case refine_2 =>
    rw [hr]
    show jsStrIndexOf abcd (jsValChars JSVal.undefined) = -1
    decide
  rw [hq]
  exact List.mem_map_of_mem _ hmem

/-- Witness for the amended C7 theorem: a two-option record whose answer is
free text (designating −1) is shuffled by the identity pair permutation and
comes out with an undefined answer whose derived index is still −1. -/
theorem randomize_keeps_derived_sentinel_witness :
    randomizeRecord ⟨"w", ["o1", "o2"], JSVal.str "free text", false⟩
        [("o1", 0), ("o2", 1)] ∈
      randomizeQuestions "random" [⟨"w", ["o1", "o2"], JSVal.str "free text", false⟩]
        [⟨"w", ["o1", "o2"], JSVal.str "free text", false⟩] [[("o1", 0), ("o2", 1)]] ∧
    (randomizeRecord ⟨"w", ["o1", "o2"], JSVal.str "free text", false⟩
        [("o1", 0), ("o2", 1)]).raw_answer = JSVal.undefined ∧
    jsStrIndexOf abcd (jsValChars
      (randomizeRecord ⟨"w", ["o1", "o2"], JSVal.str "free text", false⟩
        [("o1", 0), ("o2", 1)]).raw_answer) = -1 :=
  randomize_keeps_derived_sentinel _ _ _ _ _
    (by decide) (by decide) (by decide) (by decide)

/-- C7 counterexample: a record answered "E" (derived index −1) over options
`["a","b"]` does not keep its answer through the permutation — `raw_answer`
becomes `undefined` (the claim excludes exactly this outcome). -/
theorem randomize_sentinel_becomes_undefined :
    jsStrIndexOf abcd (jsValChars (JSVal.str "E")) = -1 ∧
    [("a", (0 : Nat)), ("b", 1)].Perm (optionPairs ["a", "b"]) ∧
    randomizeRecord ⟨"q", ["a", "b"], JSVal.str "E", false⟩ [("a", 0), ("b", 1)] =
      ⟨"q", ["a", "b"], JSVal.undefined, false⟩ :=
  ⟨by decide, by decide, by decide⟩

/-- C1 (amended): in random mode, for every record with **at most four**
options whose answer letter designates a valid original position `c`, the
option marked correct after the per-record permutation is the very option
that sat at position `c` before it — tracked through `originalIndex`, so
duplicate option text cannot mislead it.  For longer option lists the
hard-coded `'ABCD'` table breaks the tracking (see the counterexample). -/
theorem randomize_preserves_correct_option_upto_four (qs shuffled : List JSRec)
    (ps : List (List (String × Nat))) (q : JSRec) (pairs : List (String × Nat))
    (c : Nat) (hmem : (q, pairs) ∈ shuffled.zip ps)
    (hperm : pairs.Perm (optionPairs q.raw_options))
    (hlen : q.raw_options.length ≤ 4)
    (hidx : jsStrIndexOf abcd (jsValChars q.raw_answer) = (c : Int))
    (hc : c < q.raw_options.length) :
    randomizeRecord q pairs ∈ randomizeQuestions "random" qs shuffled ps ∧
    ∃ j : Nat, j < (randomizeRecord q pairs).raw_options.length ∧
      jsStrIndexOf abcd (jsValChars (randomizeRecord q pairs).raw_answer) = (j : Int) ∧
      (randomizeRecord q pairs).raw_options[j]? = q.raw_options[c]? := by
  constructor
  · have hq : randomizeQuestions "random" qs shuffled ps =
        (shuffled.zip ps).map (fun p => randomizeRecord p.1 p.2) := rfl
    rw [hq]
    exact List.mem_map_of_mem _ hmem
  · exact randomizeRecord_tracks q pairs c hperm hlen hidx hc

/-- Witness for the amended C1 theorem: options `["X","Y","Z","W"]` with
answer letter "C" (index 2, option "Z"), shuffled by a concrete permutation
that moves "Z" to position 1; the new answer letter "B" designates position
1, which again holds "Z". -/
theorem randomize_preserves_correct_option_upto_four_witness :
    [("W", (3 : Nat)), ("Z", 2), ("X", 0), ("Y", 1)].Perm
      (optionPairs ["X", "Y", "Z", "W"]) ∧
    (["X", "Y", "Z", "W"] : List String).length ≤ 4 ∧
    jsStrIndexOf abcd (jsValChars (JSVal.str "C")) = ((2 : Nat) : Int) ∧
    (randomizeRecord ⟨"q1", ["X", "Y", "Z", "W"], JSVal.str "C", false⟩
        [("W", 3), ("Z", 2), ("X", 0), ("Y", 1)] ∈
      randomizeQuestions "random" [⟨"q1", ["X", "Y", "Z", "W"], JSVal.str "C", false⟩]
        [⟨"q1", ["X", "Y", "Z", "W"], JSVal.str "C", false⟩]
        [[("W", 3), ("Z", 2), ("X", 0), ("Y", 1)]] ∧
    ∃ j : Nat, j < (randomizeRecord ⟨"q1", ["X", "Y", "Z", "W"], JSVal.str "C", false⟩
        [("W", 3), ("Z", 2), ("X", 0), ("Y", 1)]).raw_options.length ∧
      jsStrIndexOf abcd (jsValChars (randomizeRecord
        ⟨"q1", ["X", "Y", "Z", "W"], JSVal.str "C", false⟩
        [("W", 3), ("Z", 2), ("X", 0), ("Y", 1)]).raw_answer) = (j : Int) ∧
      (randomizeRecord ⟨"q1", ["X", "Y", "Z", "W"], JSVal.str "C", false⟩
        [("W", 3), ("Z", 2), ("X", 0), ("Y", 1)]).raw_options[j]? =
        (⟨"q1", ["X", "Y", "Z", "W"], JSVal.str "C", false⟩ : JSRec).raw_options[(2 : Nat)]?) :=
  ⟨by decide, by decide, by decide,
    randomize_preserves_correct_option_upto_four _ _ _ _ _ 2
      (by decide) (by decide) (by decide) (by decide) (by decide)⟩

/-- C1 counterexample: with five options and answer "A" (a valid designation
of index 0 among 5), there is a legitimate permutation (moving "X" to the
last slot) after which `'ABCD'[4]` yields `undefined`: the record no longer
marks any option correct, refuting "this holds for option lists of any
length". -/
theorem randomize_five_options_loses_answer :
    jsStrIndexOf abcd (jsValChars (JSVal.str "A")) = 0 ∧
    [("Y", (1 : Nat)), ("Z", 2), ("W", 3), ("V", 4), ("X", 0)].Perm
      (optionPairs ["X", "Y", "Z", "W", "V"]) ∧
    randomizeRecord ⟨"q", ["X", "Y", "Z", "W", "V"], JSVal.str "A", false⟩
      [("Y", 1), ("Z", 2), ("W", 3), ("V", 4), ("X", 0)] =
      ⟨"q", ["Y", "Z", "W", "V", "X"], JSVal.undefined, false⟩ ∧
    jsStrIndexOf abcd (jsValChars JSVal.undefined) = -1 :=
  ⟨by decide, by decide, by decide, by decide⟩
